import Mathlib

/-!
Verification of the Registry Resolution & Caching layer
(`registry/registryprovider.go`).

The Go source is shallowly embedded: the provider's mutable
`map[string]Registry` cache becomes an explicit association list threaded
through the operations, Go's `(value, error)` returns become `Except` (or an
explicit pair of options where a nil interface value together with a nil
error is possible), and the two `regexp` patterns — which use only literal
characters, the `.` metacharacter and `(.*)` groups — are embedded by a
small backtracking matcher implementing RE2's unanchored, leftmost-greedy
semantics for exactly that fragment.

Collaborators that live outside the embedded file (the registry-metadata
service, the concrete GitHub registry constructors, `util` and `net/url`
helpers) are either abstract parameters or are modelled from the
specification; every modelled definition carries a doc comment saying so.
-/

set_option autoImplicit false

namespace Helm

/-! ## List-level string helpers -/

/-- Boolean test that `p` is an initial segment of `cs`
(the semantics of Go's `strings.HasPrefix`, on character lists). -/
def startsWithL : List Char → List Char → Bool
  | [], _ => true
  | _ :: _, [] => false
  | p :: ps, c :: cs => p == c && startsWithL ps cs

/-- Split a character list at every occurrence of `sep`
(the semantics of Go's `strings.Split`): `splitOnChar ';' "a;;b"` is
`["a", "", "b"]`, and the empty input yields `[ [] ]`. -/
def splitOnChar (sep : Char) : List Char → List (List Char)
  | [] => [[]]
  | c :: cs =>
    let r := splitOnChar sep cs
    if c = sep then [] :: r
    else
      match r with
      | h :: t => (c :: h) :: t
      | [] => [[c]]

theorem startsWithL_iff_append (p cs : List Char) :
    startsWithL p cs = true ↔ ∃ t, cs = p ++ t := by
  induction p generalizing cs with
  | nil => simp [startsWithL]
  | cons x xs ih =>
    cases cs with
    | nil => simp [startsWithL]
    | cons c cs =>
      simp only [startsWithL, Bool.and_eq_true, beq_iff_eq]
      constructor
      · rintro ⟨rfl, h⟩
        obtain ⟨t, rfl⟩ := (ih cs).mp h
        exact ⟨t, rfl⟩
      · rintro ⟨t, ht⟩
        cases ht
        exact ⟨rfl, (ih _).mpr ⟨t, rfl⟩⟩

/-! ## Data model

`Type` (the value object identifying one artifact inside a registry) is
called `TypeV` here because `Type` is a Lean keyword; its fields follow the
specification's `{Qualifier, Name, Version}`. -/

structure TypeV where
  qualifier : String
  name : String
  version : String
deriving DecidableEq, Repr

/-- The two concrete registry variants the factory can construct
(the dynamic type of the Go value: `GithubPackageRegistry` or
`GithubTemplateRegistry`). -/
inductive RegistryVariant
  | package
  | template
deriving DecidableEq, Repr

/-- The `Registry` capability: the three methods of the Go interface that the
embedded code consults.  `GetDownloadURLs` produces the registry's own URL
objects; URLs are represented by their string serialization. -/
structure Registry where
  GetRegistryName : String
  GetRegistryShortURL : String
  variant : RegistryVariant
  GetDownloadURLs : TypeV → Except String (List String)

/-- A persisted registry record (`common.Registry`); `Type'` stands for the
Go field `Type` (a Lean keyword). -/
structure CommonRegistry where
  Name : String
  Type' : String
  URL : String
  Format : String
deriving DecidableEq, Repr

/-- Modelled from the spec: the constant `common.GithubRegistryType`
(declared outside `src/`); the record type tag for GitHub registries. -/
def GithubRegistryType : String := "github"

/-- Modelled from the spec: the format tag `common.UnversionedRegistry`
(declared outside `src/`). -/
def UnversionedRegistry : String := "unversioned"

/-- Modelled from the spec: the format tag `common.OneLevelRegistry`
(declared outside `src/`). -/
def OneLevelRegistry : String := "one-level"

/-- Modelled from the spec: the format tag `common.VersionedRegistry`
(declared outside `src/`). -/
def VersionedRegistry : String := "versioned"

/-- Modelled from the spec: the format tag `common.CollectionRegistry`
(declared outside `src/`). -/
def CollectionRegistry : String := "collection"

/-! ## Registry factory -/

/-- `ParseRegistryFormat` splits the delimiter-joined format string on `";"`.
The Go function returns a `map[RegistryFormat]bool`; membership in that map
is membership in this list, so the list is the same set. -/
def ParseRegistryFormat (rf : String) : List String :=
  (splitOnChar ';' rf.data).map (fun l => String.mk l)

/-- Modelled from the spec: `NewGithubPackageRegistry` (defined outside
`src/`) constructs the package-variant Registry for the record's name and
URL.  Per §1 of the spec the registry's own download logic is out of scope;
it is represented by a function returning no URLs. -/
def NewGithubPackageRegistry (name URL : String) : Except String Registry :=
  .ok { GetRegistryName := name, GetRegistryShortURL := URL,
        variant := .package, GetDownloadURLs := fun _ => .ok [] }

/-- Modelled from the spec: `NewGithubTemplateRegistry` (defined outside
`src/`) constructs the template-variant Registry for the record's name and
URL; download logic out of scope as above. -/
def NewGithubTemplateRegistry (name URL : String) : Except String Registry :=
  .ok { GetRegistryName := name, GetRegistryShortURL := URL,
        variant := .template, GetDownloadURLs := fun _ => .ok [] }

/-- The factory dispatch of `registryProvider.GetGithubRegistry`: on a
GitHub-typed record it consults the parsed format-tag set — first for
`unversioned` together with `one-level`, then for `versioned` together with
`collection` — and otherwise fails with the format (resp. type) in the
error message. -/
def GetGithubRegistry (cr : CommonRegistry) : Except String Registry :=
  if cr.Type' = GithubRegistryType then
    if (ParseRegistryFormat cr.Format).contains UnversionedRegistry &&
       (ParseRegistryFormat cr.Format).contains OneLevelRegistry then
      NewGithubPackageRegistry cr.Name cr.URL
    else if (ParseRegistryFormat cr.Format).contains VersionedRegistry &&
            (ParseRegistryFormat cr.Format).contains CollectionRegistry then
      NewGithubTemplateRegistry cr.Name cr.URL
    else .error ("unknown registry format: " ++ cr.Format)
  else .error ("unknown registry type: " ++ cr.Type')

/-! ## The registry provider (cache)

The Go struct `registryProvider` holds the metadata service `rs`, the
factory delegate `grp` and the cache `registries : map[string]Registry`.
The map is embedded as an association list: `mapLookup` is map indexing and
`mapInsert` is map assignment (overwriting an existing key, appending a new
one).  `findRegistryByShortURL` ranges over the map; Go's map iteration
order is unspecified, and the embedding fixes it to insertion order — none
of the proved statements depend on which of several prefix-matching entries
is chosen.  Because the cache-miss paths call the metadata service, each
operation also returns the number of metadata-service calls it issued
(`0` on a cache hit, `1` on a miss), instrumenting exactly the `rp.rs.Get`
/ `rp.rs.GetByURL` call sites of the source. -/

/-- The metadata source (`common.RegistryService`), an external collaborator:
`Get` fetches a record by exact name, `GetByURL` by URL. -/
structure RegistryService where
  Get : String → Except String CommonRegistry
  GetByURL : String → Except String CommonRegistry

/-- The factory delegate (`GithubRegistryProvider` interface). -/
structure GithubRegistryProviderI where
  GetGithubRegistry : CommonRegistry → Except String Registry

/-- Go map indexing `m[k]` for the cache. -/
def mapLookup (m : List (String × Registry)) (k : String) : Option Registry :=
  (m.find? (fun p => p.1 == k)).map Prod.snd

/-- Go map assignment `m[k] = v`: replaces the entry with key `k` if one
exists, otherwise appends a new entry. -/
def mapInsert : List (String × Registry) → String → Registry →
    List (String × Registry)
  | [], k, v => [(k, v)]
  | p :: rest, k, v =>
    if p.1 == k then (k, v) :: rest else p :: mapInsert rest k v

/-- The provider struct (`registryProvider`); the `sync.RWMutex` field has
no counterpart in this sequential embedding. -/
structure registryProvider where
  rs : RegistryService
  grp : GithubRegistryProviderI
  registries : List (String × Registry)

/-- Modelled from the spec: `util.TrimURLScheme` (defined outside `src/`)
strips the URL scheme — an `http://` or `https://` prefix — from the
string. -/
def TrimURLScheme (URL : String) : String :=
  if startsWithL "https://".data URL.data then String.mk (URL.data.drop 8)
  else if startsWithL "http://".data URL.data then String.mk (URL.data.drop 7)
  else URL

/-- `findRegistryByShortURL` trims the scheme from both the supplied URL and
each cached registry's short URL, and returns the first cached registry
whose trimmed short URL is a string-prefix of the trimmed input. -/
def findRegistryByShortURL (rp : registryProvider) (URL : String) :
    Option Registry :=
  ((rp.registries.find? (fun p =>
      startsWithL (TrimURLScheme p.2.GetRegistryShortURL).data
        (TrimURLScheme URL).data)).map Prod.snd)

/-- `GetRegistryByShortURL`, with the state threaded explicitly and the
number of metadata-service (`rs.GetByURL`) calls recorded: on a miss the
record is fetched by URL, built by the factory, and cached under the new
registry's own reported name. -/
def registryProvider.GetRegistryByShortURLC (rp : registryProvider)
    (URL : String) : Except String Registry × registryProvider × Nat :=
  match findRegistryByShortURL rp URL with
  | some result => (.ok result, rp, 0)
  | none =>
    match rp.rs.GetByURL URL with
    | .error e => (.error e, rp, 1)
    | .ok cr =>
      match rp.grp.GetGithubRegistry cr with
      | .error e => (.error e, rp, 1)
      | .ok r =>
        (.ok r,
         { rp with registries := mapInsert rp.registries r.GetRegistryName r },
         1)

/-- `GetRegistryByShortURL` as the Go signature exposes it (result and
updated provider, without the instrumentation counter). -/
def registryProvider.GetRegistryByShortURL (rp : registryProvider)
    (URL : String) : Except String Registry × registryProvider :=
  ((rp.GetRegistryByShortURLC URL).1, (rp.GetRegistryByShortURLC URL).2.1)

/-- `GetRegistryByName`, with the state threaded explicitly and the number
of metadata-service (`rs.Get`) calls recorded: a hit under the exact lookup
name returns the cached registry; a miss fetches the record by name, builds
it via the factory, and caches it under the constructed registry's own
reported name — which may differ from the lookup name. -/
def registryProvider.GetRegistryByNameC (rp : registryProvider)
    (registryName : String) : Except String Registry × registryProvider × Nat :=
  match mapLookup rp.registries registryName with
  | some result => (.ok result, rp, 0)
  | none =>
    match rp.rs.Get registryName with
    | .error e => (.error e, rp, 1)
    | .ok cr =>
      match rp.grp.GetGithubRegistry cr with
      | .error e => (.error e, rp, 1)
      | .ok r =>
        (.ok r,
         { rp with registries := mapInsert rp.registries r.GetRegistryName r },
         1)

/-- `GetRegistryByName` as the Go signature exposes it. -/
def registryProvider.GetRegistryByName (rp : registryProvider)
    (registryName : String) : Except String Registry × registryProvider :=
  ((rp.GetRegistryByNameC registryName).1, (rp.GetRegistryByNameC registryName).2.1)

/-! ## The two regular expressions

`TemplateRegistryMatcher` is `github.com/(.*)/(.*)/(.*)/(.*):(.*)` and
`PackageRegistryMatcher` is `github.com/(.*)/(.*)/(.*)`.  Both use only
literal characters, the `.` metacharacter (any character except newline)
and the capture group `(.*)`, so a pattern is a token list: literal runs,
single-character wildcards, and greedy any-sequence groups.  `reFind`
embeds Go's `FindStringSubmatch` on such a pattern: the match is
unanchored (earliest starting position wins) and each `(.*)` is greedy,
earlier groups taking priority — RE2's leftmost-first semantics.  `reFind`
returns the list of capture-group texts when a match exists; Go's extra
leading whole-match entry (which makes `len(m)` one more than the group
count) is not materialized. -/

/-- One token of the regex fragment: a literal run, `.`, or `(.*)`. -/
inductive RTok
  | lit (l : List Char)
  | dot
  | gap
deriving DecidableEq

/-- Anchored-at-start matching of a token list against `cs` (with a fuel
parameter making the recursion structural, so that concrete instances
reduce definitionally), returning the capture-group texts of the first
match; a match may end before the end of `cs`.  A `(.*)` group greedily
tries the longest capture first — consuming a non-newline character and
recursing — and falls back to ending the group where it stands, which is
RE2's leftmost-first preference order for this pattern fragment.  Every
recursive call decreases `ts.length + cs.length`, so any fuel above that
sum gives the fuel-free semantics (`findToksF_fuel_irrel`). -/
def findToksF : Nat → List RTok → List Char → Option (List (List Char))
  | 0, _, _ => none
  | _ + 1, [], _ => some []
  | fuel + 1, .lit l :: ts, cs =>
    if startsWithL l cs then findToksF fuel ts (cs.drop l.length) else none
  | _ + 1, .dot :: _, [] => none
  | fuel + 1, .dot :: ts, c :: cs => if c = '\n' then none else findToksF fuel ts cs
  | fuel + 1, .gap :: ts, [] => (findToksF fuel ts []).map (fun gs => [] :: gs)
  | fuel + 1, .gap :: ts, c :: cs =>
    if c = '\n' then (findToksF fuel ts (c :: cs)).map (fun gs => [] :: gs)
    else
      match findToksF fuel (.gap :: ts) cs with
      | some (g :: gs) => some ((c :: g) :: gs)
      | some [] => none
      | none => (findToksF fuel ts (c :: cs)).map (fun gs => [] :: gs)

/-- Anchored-at-start matching with the fuel instantiated to a sufficient
bound. -/
def findToks (ts : List RTok) (cs : List Char) : Option (List (List Char)) :=
  findToksF (ts.length + cs.length + 1) ts cs

/-! ### Declarative semantics of the regex fragment

`MToks ts cs` holds when the token list `ts` matches some initial segment
of `cs`: literals consume themselves, `.` consumes one non-newline
character, `(.*)` consumes any run of non-newline characters, and the empty
token list matches (a match may end before the end of the input).  The
executable matcher is proved equivalent (`findToks_isSome_iff`), which
pins down exactly which strings the Go `MatchString` calls accept. -/

/-- Declarative matching relation for the regex fragment. -/
inductive MToks : List RTok → List Char → Prop
  | nil (cs : List Char) : MToks [] cs
  | lit (l : List Char) (ts : List RTok) (cs : List Char) :
      MToks ts cs → MToks (.lit l :: ts) (l ++ cs)
  | dot (c : Char) (ts : List RTok) (cs : List Char) :
      c ≠ '\n' → MToks ts cs → MToks (.dot :: ts) (c :: cs)
  | gapNil (ts : List RTok) (cs : List Char) :
      MToks ts cs → MToks (.gap :: ts) cs
  | gapCons (c : Char) (ts : List RTok) (cs : List Char) :
      c ≠ '\n' → MToks (.gap :: ts) cs → MToks (.gap :: ts) (c :: cs)

/-- No newline occurs in the character list (what a `.` or `(.*)` may
consume). -/
def noNL (l : List Char) : Prop := ∀ x ∈ l, x ≠ '\n'

theorem MToks_lit_iff (l : List Char) (ts : List RTok) (cs : List Char) :
    MToks (.lit l :: ts) cs ↔ ∃ t, cs = l ++ t ∧ MToks ts t := by
  constructor
  · intro h
    cases h with
    | lit _ _ t h' => exact ⟨t, rfl, h'⟩
  · rintro ⟨t, rfl, h⟩
    exact MToks.lit l ts t h

theorem MToks_dot_iff (ts : List RTok) (cs : List Char) :
    MToks (.dot :: ts) cs ↔ ∃ c t, cs = c :: t ∧ c ≠ '\n' ∧ MToks ts t := by
  constructor
  · intro h
    cases h with
    | dot c _ t hc h' => exact ⟨c, t, rfl, hc, h'⟩
  · rintro ⟨c, t, rfl, hc, h⟩
    exact MToks.dot c ts t hc h

theorem MToks_gap_iff (ts : List RTok) (cs : List Char) :
    MToks (.gap :: ts) cs ↔ ∃ g t, cs = g ++ t ∧ noNL g ∧ MToks ts t := by
  constructor
  · intro h
    induction cs with
    | nil =>
      cases h with
      | gapNil _ _ h' => exact ⟨[], [], rfl, by simp [noNL], h'⟩
    | cons c cs ih =>
      cases h with
      | gapNil _ _ h' => exact ⟨[], c :: cs, rfl, by simp [noNL], h'⟩
      | gapCons _ _ _ hc h' =>
        obtain ⟨g, t, rfl, hg, ht⟩ := ih h'
        refine ⟨c :: g, t, rfl, ?_, ht⟩
        intro x hx
        simp only [List.mem_cons] at hx
        rcases hx with rfl | hx
        · exact hc
        · exact hg x hx
  · rintro ⟨g, t, rfl, hg, ht⟩
    induction g with
    | nil => exact MToks.gapNil ts t ht
    | cons c g ih =>
      refine MToks.gapCons c ts (g ++ t) (hg c (by simp)) ?_
      refine ih ?_
      intro x hx
      exact hg x (by simp [hx])

/-- A successful match of `(.*)` followed by `ts` always reports at least
the group's own capture. -/
theorem findToksF_gap_ne_nil (fuel : Nat) (ts : List RTok) (cs : List Char)
    (l : List (List Char)) (h : findToksF fuel (.gap :: ts) cs = some l) :
    l ≠ [] := by
  match fuel, cs with
  | 0, _ => simp [findToksF] at h
  | fuel + 1, [] =>
    simp only [findToksF, Option.map_eq_some'] at h
    obtain ⟨gs, _, rfl⟩ := h
    simp
  | fuel + 1, c :: cs =>
    simp only [findToksF] at h
    by_cases hc : c = '\n'
    · simp only [if_pos hc, Option.map_eq_some'] at h
      obtain ⟨gs, _, rfl⟩ := h
      simp
    · simp only [if_neg hc] at h
      rcases hr : findToksF fuel (.gap :: ts) cs with _ | l'
      · rw [hr] at h
        simp only [Option.map_eq_some'] at h
        obtain ⟨gs, _, rfl⟩ := h
        simp
      · rw [hr] at h
        cases l' with
        | nil => simp at h
        | cons g gs =>
          simp only [Option.some.injEq] at h
          subst h
          simp

/-- The executable matcher agrees with the declarative relation, for any
sufficient fuel. -/
theorem findToksF_isSome_iff (fuel : Nat) :
    ∀ (ts : List RTok) (cs : List Char), ts.length + cs.length < fuel →
      ((findToksF fuel ts cs).isSome = true ↔ MToks ts cs) := by
  induction fuel with
  | zero => intro ts cs h; omega
  | succ fuel ih =>
    intro ts cs hb
    match ts with
    | [] =>
      simp only [findToksF, Option.isSome_some, true_iff]
      exact MToks.nil cs
    | .lit l :: ts =>
      simp only [findToksF]
      by_cases hs : startsWithL l cs = true
      · obtain ⟨t, rfl⟩ := (startsWithL_iff_append l cs).mp hs
        rw [if_pos hs]
        have hdrop : (l ++ t).drop l.length = t := by
          simp [List.drop_left]
        rw [hdrop]
        rw [ih ts t (by simp only [List.length_cons, List.length_nil, List.length_append] at hb ⊢; omega)]
        rw [MToks_lit_iff]
        constructor
        · intro h
          exact ⟨t, rfl, h⟩
        · rintro ⟨t', ht', h⟩
          have : t' = t := List.append_cancel_left ht'.symm
          exact this ▸ h
      · rw [if_neg hs]
        simp only [Option.isSome_none, Bool.false_eq_true, false_iff]
        intro h
        obtain ⟨t, rfl, _⟩ := (MToks_lit_iff l ts cs).mp h
        exact hs ((startsWithL_iff_append l (l ++ t)).mpr ⟨t, rfl⟩)
    | .dot :: ts =>
      match cs with
      | [] =>
        simp only [findToksF, Option.isSome_none, Bool.false_eq_true, false_iff]
        intro h
        obtain ⟨c, t, ht, _, _⟩ := (MToks_dot_iff ts []).mp h
        simp at ht
      | c :: cs =>
        simp only [findToksF]
        by_cases hc : c = '\n'
        · rw [if_pos hc]
          simp only [Option.isSome_none, Bool.false_eq_true, false_iff]
          intro h
          obtain ⟨c', t, ht, hc', _⟩ := (MToks_dot_iff ts (c :: cs)).mp h
          cases ht
          exact hc' hc
        · rw [if_neg hc]
          rw [ih ts cs (by simp only [List.length_cons, List.length_nil, List.length_append] at hb ⊢; omega)]
          rw [MToks_dot_iff]
          constructor
          · intro h
            exact ⟨c, cs, rfl, hc, h⟩
          · rintro ⟨c', t, ht, _, h⟩
            cases ht
            exact h
    | .gap :: ts =>
      match cs with
      | [] =>
        simp only [findToksF, Option.isSome_map']
        rw [ih ts [] (by simp only [List.length_cons, List.length_nil, List.length_append] at hb ⊢; omega)]
        constructor
        · exact MToks.gapNil ts []
        · intro h
          obtain ⟨g, t, hgt, _, ht⟩ := (MToks_gap_iff ts []).mp h
          obtain ⟨rfl, rfl⟩ := List.append_eq_nil.mp hgt.symm
          exact ht
      | c :: cs =>
        simp only [findToksF]
        by_cases hc : c = '\n'
        · rw [if_pos hc]
          simp only [Option.isSome_map']
          rw [ih ts (c :: cs) (by simp only [List.length_cons, List.length_nil, List.length_append] at hb ⊢; omega)]
          constructor
          · exact MToks.gapNil ts (c :: cs)
          · intro h
            obtain ⟨g, t, hgt, hg, ht⟩ := (MToks_gap_iff ts (c :: cs)).mp h
            cases g with
            | nil => simpa [hgt] using ht
            | cons x g =>
              simp only [List.cons_append, List.cons.injEq] at hgt
              exact absurd hc (hgt.1 ▸ hg x (by simp))
        · rw [if_neg hc]
          rcases hr : findToksF fuel (.gap :: ts) cs with _ | l
          · simp only [Option.isSome_map']
            have h1 : ¬ MToks (.gap :: ts) cs := by
              rw [← ih (.gap :: ts) cs (by simp only [List.length_cons, List.length_nil, List.length_append] at hb ⊢; omega), hr]
              simp
            rw [ih ts (c :: cs) (by simp only [List.length_cons, List.length_nil, List.length_append] at hb ⊢; omega)]
            constructor
            · exact MToks.gapNil ts (c :: cs)
            · intro h
              cases h with
              | gapNil _ _ h' => exact h'
              | gapCons _ _ _ _ h' => exact absurd h' h1
          · have h1 : MToks (.gap :: ts) cs := by
              rw [← ih (.gap :: ts) cs (by simp only [List.length_cons, List.length_nil, List.length_append] at hb ⊢; omega), hr]
              simp
            cases l with
            | nil => exact absurd rfl (findToksF_gap_ne_nil fuel ts cs [] hr)
            | cons g gs =>
              simp only [Option.isSome_some, true_iff]
              exact MToks.gapCons c ts cs hc h1

/-- The anchored matcher (at its canonical fuel) agrees with the
declarative relation. -/
theorem findToks_isSome_iff (ts : List RTok) (cs : List Char) :
    (findToks ts cs).isSome = true ↔ MToks ts cs :=
  findToksF_isSome_iff (ts.length + cs.length + 1) ts cs (by omega)

/-- Unanchored search (`regexp.FindStringSubmatch` / `MatchString`): try an
anchored match at each position, earliest first. -/
def reFind (ts : List RTok) : List Char → Option (List (List Char))
  | [] => findToks ts []
  | c :: cs =>
    match findToks ts (c :: cs) with
    | some m => some m
    | none => reFind ts cs

/-- RE for a registry type that does support versions and has collections:
`github.com/(.*)/(.*)/(.*)/(.*):(.*)`. -/
def TemplateRegistryMatcher : List RTok :=
  [.lit "github".data, .dot, .lit "com/".data,
   .gap, .lit "/".data, .gap, .lit "/".data, .gap, .lit "/".data,
   .gap, .lit ":".data, .gap]

/-- RE for a registry type that does not support versions and does not have
collections: `github.com/(.*)/(.*)/(.*)`. -/
def PackageRegistryMatcher : List RTok :=
  [.lit "github".data, .dot, .lit "com/".data,
   .gap, .lit "/".data, .gap, .lit "/".data, .gap]

/-- `IsGithubShortType`: whether the template matcher finds a match
(`MatchString`) in the given type string. -/
def IsGithubShortType (t : String) : Bool :=
  (reFind TemplateRegistryMatcher t.data).isSome

/-- `IsGithubShortPackageType`: whether the package matcher finds a match
(`MatchString`) in the given type string. -/
def IsGithubShortPackageType (t : String) : Bool :=
  (reFind PackageRegistryMatcher t.data).isSome

/-- The unanchored search succeeds exactly when some position of the input
starts a declarative match. -/
theorem reFind_isSome_iff (ts : List RTok) (cs : List Char) :
    (reFind ts cs).isSome = true ↔ ∃ pre post, cs = pre ++ post ∧ MToks ts post := by
  induction cs with
  | nil =>
    simp only [reFind]
    rw [findToks_isSome_iff]
    constructor
    · intro h
      exact ⟨[], [], rfl, h⟩
    · rintro ⟨pre, post, hpp, h⟩
      obtain ⟨rfl, rfl⟩ := List.append_eq_nil.mp hpp.symm
      exact h
  | cons c cs ih =>
    simp only [reFind]
    rcases hf : findToks ts (c :: cs) with _ | m
    · simp only [hf]
      rw [ih]
      constructor
      · rintro ⟨pre, post, rfl, h⟩
        exact ⟨c :: pre, post, rfl, h⟩
      · rintro ⟨pre, post, hpp, h⟩
        cases pre with
        | nil =>
          simp only [List.nil_append] at hpp
          rw [← hpp] at h
          have hiff := findToks_isSome_iff ts (c :: cs)
          rw [hf] at hiff
          simp only [Option.isSome_none, Bool.false_eq_true, false_iff] at hiff
          exact absurd h hiff
        | cons x pre =>
          simp only [List.cons_append, List.cons.injEq] at hpp
          exact ⟨pre, post, hpp.2, h⟩
    · simp only [hf, Option.isSome_some, true_iff]
      have hiff := findToks_isSome_iff ts (c :: cs)
      rw [hf] at hiff
      simp only [Option.isSome_some, true_iff] at hiff
      exact ⟨[], c :: cs, rfl, hiff⟩

/-! ## The URL resolver (`GetDownloadURLs` and the short-type converters)

These functions receive the provider as the Go interface `RegistryProvider`,
whose implementations are arbitrary; a Go implementation can return a nil
`Registry` together with a nil `error`, so the interface is embedded as a
function yielding a pair of options.  The converters can end in four ways:
a normal result, a returned error, the explicit `panic` of
`ShortTypeToDownloadURLs`, or the runtime panic raised by calling a method
on a nil interface value. -/

/-- Outcome of a resolver call: a URL list, a returned Go error, an
explicit `panic(...)`, or the runtime fault from dereferencing a nil
`Registry` interface value. -/
inductive DLResult
  | ok (urls : List String)
  | err (msg : String)
  | panicked (msg : String)
  | nilDeref
deriving DecidableEq

/-- An arbitrary implementation of the Go interface `RegistryProvider`, as
the resolver consumes it: `GetRegistryByShortURL` returns a possibly-nil
`Registry` and a possibly-nil `error`. -/
structure RegistryProviderI where
  GetRegistryByShortURL : String → Option Registry × Option String

/-- Modelled from the spec: `NewType` (defined outside `src/`) builds the
`Type` value object from its three string components; per §1 construction
semantics beyond accepting the three components are out of scope, so it
always succeeds. -/
def NewType (qualifier name version : String) : Except String TypeV :=
  .ok { qualifier := qualifier, name := name, version := version }

/-- Modelled from the spec: `util.ConvertURLsToStrings` (defined outside
`src/`) serializes each URL object; URLs are already represented by their
string serialization here, so it is the identity. -/
def ConvertURLsToStrings (urls : List String) : List String := urls

/-- Modelled from the spec: `util.IsHttpUrl` (defined outside `src/`) tests
for a syntactically valid absolute HTTP(S) URL, i.e. one carrying an
`http://` or `https://` scheme prefix. -/
def IsHttpUrl (s : String) : Bool :=
  startsWithL "http://".data s.data || startsWithL "https://".data s.data

/-- Modelled from the spec: `net/url.Parse` followed by `URL.String()`
(both outside this repository).  The spec says the URL is returned
"re-serialized through URL parsing", failing with `InvalidURL` when parsing
fails; parsing fails exactly on ASCII control characters, and
re-serialization is the identity otherwise. -/
def urlParse (s : String) : Except String String :=
  if s.data.any (fun c => c.toNat < 32 || c.toNat == 127) then
    .error "net/url: invalid control character in URL"
  else .ok s

/-- `ShortTypeToDownloadURLs` converts a template short type: re-run the
template matcher (`len(m) != 6` in Go is exactly "no match" since a match
always yields the whole-match entry plus five groups), resolve the registry
by the full string, abort (`panic`) if the provider returned neither a
registry nor an error, build the `Type` from capture groups 3, 4 and 5, and
delegate to the registry. -/
def ShortTypeToDownloadURLs (rp : RegistryProviderI) (t : String) : DLResult :=
  match reFind TemplateRegistryMatcher t.data with
  | none => .err ("cannot parse short github url: " ++ t)
  | some m =>
    match rp.GetRegistryByShortURL t with
    | (_, some e) => .err e
    | (none, none) => .panicked ("cannot get github registry for " ++ t)
    | (some r, none) =>
      match NewType (String.mk (m.getD 2 [])) (String.mk (m.getD 3 []))
          (String.mk (m.getD 4 [])) with
      | .error e => .err e
      | .ok tt =>
        match r.GetDownloadURLs tt with
        | .error e => .err e
        | .ok urls => .ok (ConvertURLsToStrings urls)

/-- `ShortTypeToPackageDownloadURLs` converts a package short type: re-run
the package matcher (`len(m) != 4` is "no match"), resolve the registry by
the full string, build the `Type` with only the name component (capture
group 3), and delegate.  There is no nil check: a nil registry with a nil
error reaches the delegated method call and faults. -/
def ShortTypeToPackageDownloadURLs (rp : RegistryProviderI) (t : String) :
    DLResult :=
  match reFind PackageRegistryMatcher t.data with
  | none => .err ("Failed to parse short github url: " ++ t)
  | some m =>
    match rp.GetRegistryByShortURL t with
    | (_, some e) => .err e
    | (r?, none) =>
      match NewType "" (String.mk (m.getD 2 [])) "" with
      | .error e => .err e
      | .ok tt =>
        match r? with
        | none => .nilDeref
        | some r =>
          match r.GetDownloadURLs tt with
          | .error e => .err e
          | .ok urls => .ok (ConvertURLsToStrings urls)

/-- `GetDownloadURLs` classifies the type string — template short form
first, then package short form, then full HTTP(S) URL — and dispatches;
anything else is a primitive reference needing no download. -/
def GetDownloadURLs (rp : RegistryProviderI) (t : String) : DLResult :=
  if IsGithubShortType t then ShortTypeToDownloadURLs rp t
  else if IsGithubShortPackageType t then ShortTypeToPackageDownloadURLs rp t
  else if IsHttpUrl t then
    match urlParse t with
    | .error e => .err ("cannot parse download URL " ++ t ++ ": " ++ e)
    | .ok result => .ok [result]
  else .ok []

/-! ## Comparison definition and concrete instances

`specShortTypeStrict` is written from the specification's words, not from
the source, to compare the classifier against the claimed grammar.  The
remaining definitions are concrete collaborators and providers used by the
witnesses and counterexamples. -/

/-- The short-type grammar exactly as the specification claims it: the
whole string is `github.com/owner/repo/qualifier/type:version` — the host
literal followed by exactly five components, with no surrounding text
(comparison definition, from the spec text). -/
def specShortTypeStrict (s : String) : Bool :=
  startsWithL "github.com/".data s.data &&
  (match splitOnChar '/' (s.data.drop 11) with
   | [_, _, _, last] =>
     (match splitOnChar ':' last with
      | [_, _] => true
      | _ => false)
   | _ => false)

/-- A demonstration registry whose reported name (`"other"`) differs from
the name a caller looks it up by. -/
def regAcme : Registry :=
  { GetRegistryName := "other",
    GetRegistryShortURL := "https://github.com/acme/charts",
    variant := .template, GetDownloadURLs := fun _ => .ok [] }

/-- A demonstration metadata record. -/
def crDemo : CommonRegistry :=
  { Name := "r", Type' := "github", URL := "https://github.com/acme/charts",
    Format := "unversioned;one-level" }

/-- A metadata service answering every query with `crDemo`. -/
def rsDemo : RegistryService :=
  { Get := fun _ => .ok crDemo, GetByURL := fun _ => .ok crDemo }

/-- A factory delegate constructing `regAcme` from every record. -/
def grpDemo : GithubRegistryProviderI :=
  { GetGithubRegistry := fun _ => .ok regAcme }

/-- A provider over the demonstration collaborators, empty cache. -/
def rpDemo : registryProvider :=
  { rs := rsDemo, grp := grpDemo, registries := [] }

/-- A metadata service that fails every query. -/
def rsFail : RegistryService :=
  { Get := fun _ => .error "registry not found",
    GetByURL := fun _ => .error "registry not found" }

/-- A provider whose metadata service fails, empty cache. -/
def rpFail : registryProvider :=
  { rs := rsFail, grp := grpDemo, registries := [] }

/-- A provider with `regAcme` already cached under its reported name. -/
def rpCached : registryProvider :=
  { rs := rsFail, grp := grpDemo, registries := [("other", regAcme)] }

/-- A `RegistryProvider` implementation answering every short-URL probe
with the given registry and a nil error. -/
def rpConst (r : Registry) : RegistryProviderI :=
  { GetRegistryByShortURL := fun _ => (some r, none) }

/-- A `RegistryProvider` implementation answering every short-URL probe
with a nil registry and a nil error. -/
def rpNil : RegistryProviderI :=
  { GetRegistryByShortURL := fun _ => (none, none) }

/-- A registry echoing the requested type back as a single download URL,
used to observe which `Type` the resolver constructed. -/
def regEcho : Registry :=
  { GetRegistryName := "echo",
    GetRegistryShortURL := "github.com/kubernetes/application-dm-templates",
    variant := .template,
    GetDownloadURLs := fun tt =>
      .ok ["https://release/" ++ tt.qualifier ++ "/" ++ tt.name ++ "/" ++ tt.version] }

/-- The cache state after `rpDemo` resolves a name once (the entry sits
under the constructed registry's reported name `"other"`). -/
def rpIns : registryProvider :=
  { rs := rsDemo, grp := grpDemo, registries := [("other", regAcme)] }

/-! ## Cache-map lemmas -/

/-- Looking up the key just inserted always yields the inserted value. -/
theorem mapLookup_mapInsert_self (m : List (String × Registry)) (k : String)
    (v : Registry) : mapLookup (mapInsert m k v) k = some v := by
  induction m with
  | nil =>
    simp only [mapInsert, mapLookup, List.find?_cons, beq_self_eq_true]
    rfl
  | cons p rest ih =>
    by_cases hp : (p.1 == k) = true
    · simp only [mapInsert, if_pos hp, mapLookup, List.find?_cons, beq_self_eq_true]
      rfl
    · have hp' : (p.1 == k) = false := by
        simp only [Bool.not_eq_true] at hp
        exact hp
      simp only [mapInsert]
      rw [if_neg hp]
      simp only [mapLookup, List.find?_cons, hp']
      exact ih

/-! ## C1 — idempotent caching of `GetRegistryByName` -/

/-- C1 (counterexample): the claim says two consecutive
`GetRegistryByName(r)` calls issue at most one metadata-source `Get` even
when the constructed registry's reported name differs from the lookup name.
Against `rpDemo` — whose factory builds a registry reporting name `"other"`
for the lookup name `"r"` — each of the two consecutive calls issues one
`Get` (the instrumentation counter is 1 both times, two fetches in total),
because the entry cached under `"other"` is never found under `"r"`. -/
theorem GetRegistryByName_two_fetches :
    (rpDemo.GetRegistryByNameC "r").1 = .ok regAcme ∧
    (rpDemo.GetRegistryByNameC "r").2.2 = 1 ∧
    ((rpDemo.GetRegistryByNameC "r").2.1.GetRegistryByNameC "r").1 = .ok regAcme ∧
    ((rpDemo.GetRegistryByNameC "r").2.1.GetRegistryByNameC "r").2.2 = 1 :=
  ⟨rfl, rfl, rfl, rfl⟩

/-- C1 (amended): if a `GetRegistryByName(r)` call succeeds with a registry
that reports the lookup name `r` itself (or `r` was already cached), then
the consecutive second call is a pure cache hit — it issues no
metadata-source `Get`, returns the identical `Registry` instance, and
leaves the provider unchanged — and the first call issued at most one
`Get`. -/
theorem GetRegistryByName_consecutive (rp rp1 : registryProvider) (r : String)
    (reg : Registry) (n1 : Nat)
    (h1 : rp.GetRegistryByNameC r = (.ok reg, rp1, n1))
    (h2 : reg.GetRegistryName = r ∨ (mapLookup rp.registries r).isSome = true) :
    rp1.GetRegistryByNameC r = (.ok reg, rp1, 0) ∧ n1 ≤ 1 := by
  unfold registryProvider.GetRegistryByNameC at h1 ⊢
  rcases hl : mapLookup rp.registries r with _ | v
  · rcases hg : rp.rs.Get r with e | cr
    · simp [hl, hg] at h1
    · rcases hf : rp.grp.GetGithubRegistry cr with e | r'
      · simp [hl, hg, hf] at h1
      · simp only [hl, hg, hf, Prod.mk.injEq, Except.ok.injEq] at h1
        obtain ⟨h1a, h1b, h1c⟩ := h1
        subst h1a
        subst h1b
        subst h1c
        rcases h2 with hn | hs
        · exact ⟨by simp [hn, mapLookup_mapInsert_self], by omega⟩
        · rw [hl] at hs
          simp at hs
  · simp only [hl, Prod.mk.injEq, Except.ok.injEq] at h1
    obtain ⟨h1a, h1b, h1c⟩ := h1
    subst h1a
    subst h1b
    subst h1c
    exact ⟨by simp [hl], by omega⟩

/-- C1 (witness): the amended theorem applied to the demonstration
provider with lookup name `"other"`, which the constructed registry also
reports. -/
theorem GetRegistryByName_consecutive_witness :
    rpIns.GetRegistryByNameC "other" = (.ok regAcme, rpIns, 0) ∧ (1 : Nat) ≤ 1 :=
  GetRegistryByName_consecutive rpDemo rpIns "other" regAcme 1 rfl (Or.inl rfl)

/-! ## C2 — factory dispatch on type and format tags -/

/-- C2 (counterexample): the claim says a Github record whose parsed
format-tag set is anything other than exactly `{unversioned, one-level}` or
`{versioned, collection}` fails with an unknown-format error; but a record
carrying all four tags at once — a set equal to neither — is accepted and
yields a package registry, because the source tests tag containment, not
set equality. -/
theorem GetGithubRegistry_superset_accepted :
    (ParseRegistryFormat "unversioned;one-level;versioned;collection").contains
      UnversionedRegistry = true ∧
    (ParseRegistryFormat "unversioned;one-level;versioned;collection").contains
      OneLevelRegistry = true ∧
    (ParseRegistryFormat "unversioned;one-level;versioned;collection").contains
      VersionedRegistry = true ∧
    (ParseRegistryFormat "unversioned;one-level;versioned;collection").contains
      CollectionRegistry = true ∧
    (GetGithubRegistry
        { Name := "n", Type' := "github", URL := "u",
          Format := "unversioned;one-level;versioned;collection" }).toOption.map
      Registry.variant = some RegistryVariant.package :=
  ⟨rfl, rfl, rfl, rfl, rfl⟩

/-- C2 (amended): `GetGithubRegistry` dispatches on the record type and on
tag containment in the parsed format set: a non-Github type fails with the
type in the error; a Github record whose format set contains both
`unversioned` and `one-level` yields a package registry named after the
record; otherwise, if the set contains both `versioned` and `collection`,
a template registry; otherwise it fails with the literal format string in
the error. -/
theorem GetGithubRegistry_dispatch (cr : CommonRegistry) :
    (cr.Type' ≠ GithubRegistryType →
      GetGithubRegistry cr = .error ("unknown registry type: " ++ cr.Type')) ∧
    (cr.Type' = GithubRegistryType →
      (((ParseRegistryFormat cr.Format).contains UnversionedRegistry = true ∧
        (ParseRegistryFormat cr.Format).contains OneLevelRegistry = true) →
        ∃ r, GetGithubRegistry cr = .ok r ∧ r.variant = .package ∧
          r.GetRegistryName = cr.Name ∧ r.GetRegistryShortURL = cr.URL) ∧
      (¬((ParseRegistryFormat cr.Format).contains UnversionedRegistry = true ∧
         (ParseRegistryFormat cr.Format).contains OneLevelRegistry = true) →
       ((ParseRegistryFormat cr.Format).contains VersionedRegistry = true ∧
        (ParseRegistryFormat cr.Format).contains CollectionRegistry = true) →
        ∃ r, GetGithubRegistry cr = .ok r ∧ r.variant = .template ∧
          r.GetRegistryName = cr.Name ∧ r.GetRegistryShortURL = cr.URL) ∧
      (¬((ParseRegistryFormat cr.Format).contains UnversionedRegistry = true ∧
         (ParseRegistryFormat cr.Format).contains OneLevelRegistry = true) →
       ¬((ParseRegistryFormat cr.Format).contains VersionedRegistry = true ∧
         (ParseRegistryFormat cr.Format).contains CollectionRegistry = true) →
        GetGithubRegistry cr = .error ("unknown registry format: " ++ cr.Format))) := by
  refine ⟨?_, ?_⟩
  · intro ht
    unfold GetGithubRegistry
    rw [if_neg ht]
  · intro ht
    refine ⟨?_, ?_, ?_⟩
    · rintro ⟨hu, ho⟩
      unfold GetGithubRegistry NewGithubPackageRegistry
      rw [if_pos ht, if_pos (by rw [hu, ho]; rfl)]
      exact ⟨_, rfl, rfl, rfl, rfl⟩
    · rintro hn ⟨hv, hc⟩
      unfold GetGithubRegistry NewGithubTemplateRegistry
      rw [if_pos ht, if_neg (by rw [Bool.and_eq_true]; exact hn),
        if_pos (by rw [hv, hc]; rfl)]
      exact ⟨_, rfl, rfl, rfl, rfl⟩
    · intro hn1 hn2
      unfold GetGithubRegistry
      rw [if_pos ht, if_neg (by rw [Bool.and_eq_true]; exact hn1),
        if_neg (by rw [Bool.and_eq_true]; exact hn2)]

/-- C2 (witness): the dispatch theorem applied to a legal package record,
a record of a foreign type, and a Github record with an unrecognized
format. -/
theorem GetGithubRegistry_dispatch_witness :
    (∃ r, GetGithubRegistry crDemo = .ok r ∧ r.variant = .package ∧
      r.GetRegistryName = crDemo.Name ∧ r.GetRegistryShortURL = crDemo.URL) ∧
    GetGithubRegistry { Name := "n", Type' := "bitbucket", URL := "u", Format := "f" } =
      .error "unknown registry type: bitbucket" ∧
    GetGithubRegistry { Name := "n", Type' := "github", URL := "u", Format := "weird" } =
      .error "unknown registry format: weird" := by
  refine ⟨((GetGithubRegistry_dispatch crDemo).2 rfl).1 ⟨rfl, rfl⟩, ?_, ?_⟩
  · exact (GetGithubRegistry_dispatch
      { Name := "n", Type' := "bitbucket", URL := "u", Format := "f" }).1 (by decide)
  · exact (((GetGithubRegistry_dispatch
      { Name := "n", Type' := "github", URL := "u", Format := "weird" }).2 rfl).2.2
        (by decide) (by decide))

/-! ## C3 — what the template classifier accepts -/

/-- C3 (counterexample): the claim says `IsGithubShortType` accepts exactly
the strings of the grammar `github.com/owner/repo/qualifier/type:version`
with no surrounding text and no extra components; but the matcher is
unanchored and its groups admit slashes, so it also accepts a string with a
URL scheme prefix and one with six components — both outside the claimed
grammar (`specShortTypeStrict`, written from the spec's words). -/
theorem IsGithubShortType_not_exact :
    IsGithubShortType "https://github.com/a/b/c/d:v1" = true ∧
    specShortTypeStrict "https://github.com/a/b/c/d:v1" = false ∧
    IsGithubShortType "github.com/a/b/c/d/e:v1" = true ∧
    specShortTypeStrict "github.com/a/b/c/d/e:v1" = false ∧
    specShortTypeStrict "github.com/a/b/c/d:v1" = true :=
  ⟨rfl, rfl, rfl, rfl, rfl⟩

/-- C3 (amended): `IsGithubShortType s` is true exactly when `s` contains —
anywhere, with arbitrary surrounding text before and after — `github`, one
non-newline character, `com/`, and then four further fields separated by
`/`, `/`, `/` and `:`, each field free of newlines but otherwise arbitrary
(in particular fields may contain further slashes, so strings with extra
components are accepted). -/
theorem IsGithubShortType_unanchored_iff (s : String) :
    IsGithubShortType s = true ↔
      ∃ pre c a b d e post, c ≠ '\n' ∧ noNL a ∧ noNL b ∧ noNL d ∧ noNL e ∧
        s.data = pre ++ ("github".data ++ (c :: ("com/".data ++ (a ++ ("/".data ++
          (b ++ ("/".data ++ (d ++ ("/".data ++ (e ++ (":".data ++ post))))))))))) := by
  unfold IsGithubShortType
  rw [reFind_isSome_iff]
  constructor
  · rintro ⟨pre, post0, hs, h⟩
    simp only [TemplateRegistryMatcher] at h
    rw [MToks_lit_iff] at h
    obtain ⟨t1, rfl, h⟩ := h
    rw [MToks_dot_iff] at h
    obtain ⟨c, t2, rfl, hc, h⟩ := h
    rw [MToks_lit_iff] at h
    obtain ⟨t3, rfl, h⟩ := h
    rw [MToks_gap_iff] at h
    obtain ⟨a, t4, rfl, ha, h⟩ := h
    rw [MToks_lit_iff] at h
    obtain ⟨t5, rfl, h⟩ := h
    rw [MToks_gap_iff] at h
    obtain ⟨b, t6, rfl, hb2, h⟩ := h
    rw [MToks_lit_iff] at h
    obtain ⟨t7, rfl, h⟩ := h
    rw [MToks_gap_iff] at h
    obtain ⟨d, t8, rfl, hd, h⟩ := h
    rw [MToks_lit_iff] at h
    obtain ⟨t9, rfl, h⟩ := h
    rw [MToks_gap_iff] at h
    obtain ⟨e, t10, rfl, he, h⟩ := h
    rw [MToks_lit_iff] at h
    obtain ⟨t11, rfl, h⟩ := h
    exact ⟨pre, c, a, b, d, e, t11, hc, ha, hb2, hd, he, hs⟩
  · rintro ⟨pre, c, a, b, d, e, post, hc, ha, hb2, hd, he, hs⟩
    refine ⟨pre, _, hs, ?_⟩
    simp only [TemplateRegistryMatcher]
    apply MToks.lit
    apply MToks.dot _ _ _ hc
    apply MToks.lit
    refine (MToks_gap_iff _ _).mpr ⟨a, _, rfl, ha, ?_⟩
    apply MToks.lit
    refine (MToks_gap_iff _ _).mpr ⟨b, _, rfl, hb2, ?_⟩
    apply MToks.lit
    refine (MToks_gap_iff _ _).mpr ⟨d, _, rfl, hd, ?_⟩
    apply MToks.lit
    refine (MToks_gap_iff _ _).mpr ⟨e, _, rfl, he, ?_⟩
    apply MToks.lit
    exact MToks.gapNil _ _ (MToks.nil _)

/-! ## C4 — the template path of the resolver -/

/-- C4: whenever the template matcher accepts the type string, the
dispatcher takes the template path — its result is that of
`ShortTypeToDownloadURLs`, whatever the package matcher would say — and on
the specification's example string, with any provider that resolves the
full string to a registry `r` (and no error), the result is exactly `r`'s
own `GetDownloadURLs` on `Type` qualifier `storage`, name `redis`, version
`v1`, converted to strings. -/
theorem GetDownloadURLs_template_path :
    (∀ (rp : RegistryProviderI) (t : String), IsGithubShortType t = true →
      GetDownloadURLs rp t = ShortTypeToDownloadURLs rp t) ∧
    (∀ (rp : RegistryProviderI) (r : Registry),
      rp.GetRegistryByShortURL
          "github.com/kubernetes/application-dm-templates/storage/redis:v1" =
        (some r, none) →
      GetDownloadURLs rp
          "github.com/kubernetes/application-dm-templates/storage/redis:v1" =
        (match r.GetDownloadURLs
            { qualifier := "storage", name := "redis", version := "v1" } with
         | .error e => DLResult.err e
         | .ok urls => DLResult.ok (ConvertURLsToStrings urls))) := by
  constructor
  · intro rp t h
    unfold GetDownloadURLs
    rw [if_pos h]
  · intro rp r h
    have hT : IsGithubShortType
        "github.com/kubernetes/application-dm-templates/storage/redis:v1" = true := rfl
    unfold GetDownloadURLs
    rw [if_pos hT]
    unfold ShortTypeToDownloadURLs
    have hm : reFind TemplateRegistryMatcher
        ("github.com/kubernetes/application-dm-templates/storage/redis:v1").data =
        some ["kubernetes".data, "application-dm-templates".data, "storage".data,
          "redis".data, "v1".data] := rfl
    rw [hm, h]
    rfl

/-- C4 (witness): the theorem applied to a provider resolving the example
string to the echo registry, which reports back the constructed type. -/
theorem GetDownloadURLs_template_path_witness :
    GetDownloadURLs (rpConst regEcho)
        "github.com/kubernetes/application-dm-templates/storage/redis:v1" =
      DLResult.ok ["https://release/storage/redis/v1"] := by
  rw [GetDownloadURLs_template_path.2 (rpConst regEcho) regEcho rfl]
  rfl

/-! ## C5 — full HTTP(S) URLs -/

/-- C5: on a string that matches neither short form but carries an HTTP(S)
scheme, the resolver consults no registry (its result is the same for every
provider) and returns the single URL re-serialized through URL parsing —
or the parse failure, wrapped in the invalid-URL error. -/
theorem GetDownloadURLs_http (t : String)
    (h1 : IsGithubShortType t = false) (h2 : IsGithubShortPackageType t = false)
    (h3 : IsHttpUrl t = true) :
    ∀ rp rp' : RegistryProviderI,
      GetDownloadURLs rp t = GetDownloadURLs rp' t ∧
      GetDownloadURLs rp t =
        (match urlParse t with
         | .error e => DLResult.err ("cannot parse download URL " ++ t ++ ": " ++ e)
         | .ok result => DLResult.ok [result]) := by
  intro rp rp'
  have key : ∀ rq : RegistryProviderI,
      GetDownloadURLs rq t =
        (match urlParse t with
         | .error e => DLResult.err ("cannot parse download URL " ++ t ++ ": " ++ e)
         | .ok result => DLResult.ok [result]) := by
    intro rq
    unfold GetDownloadURLs
    rw [if_neg (by simp [h1]), if_neg (by simp [h2]), if_pos h3]
  exact ⟨(key rp).trans (key rp').symm, key rp⟩

/-- C5 (witness): the theorem applied to the specification's example URL,
under two different providers. -/
theorem GetDownloadURLs_http_witness :
    GetDownloadURLs rpNil "https://example.com/blob/file.yaml" =
      DLResult.ok ["https://example.com/blob/file.yaml"] ∧
    GetDownloadURLs rpNil "https://example.com/blob/file.yaml" =
      GetDownloadURLs (rpConst regEcho) "https://example.com/blob/file.yaml" := by
  have h := GetDownloadURLs_http "https://example.com/blob/file.yaml" rfl rfl rfl
    rpNil (rpConst regEcho)
  refine ⟨?_, h.1⟩
  rw [h.2]
  rfl

/-! ## C6 — primitive references -/

/-- C6: on a string that matches neither short form and carries no HTTP(S)
scheme, the resolver returns an empty list and no error, for every
provider. -/
theorem GetDownloadURLs_primitive (t : String)
    (h1 : IsGithubShortType t = false) (h2 : IsGithubShortPackageType t = false)
    (h3 : IsHttpUrl t = false) :
    ∀ rp : RegistryProviderI, GetDownloadURLs rp t = DLResult.ok [] := by
  intro rp
  unfold GetDownloadURLs
  rw [if_neg (by simp [h1]), if_neg (by simp [h2]), if_neg (by simp [h3])]

/-- C6 (witness): the theorem applied to the specification's example
primitive reference `"string"`. -/
theorem GetDownloadURLs_primitive_witness :
    GetDownloadURLs rpNil "string" = DLResult.ok [] :=
  GetDownloadURLs_primitive "string" rfl rfl rfl rpNil

/-! ## C7 — scheme-insensitive short-URL matching -/

/-- The cached-entry scan depends only on the scheme-stripped probe. -/
theorem findRegistryByShortURL_trim_eq (rp : registryProvider) (u1 u2 : String)
    (h : TrimURLScheme u1 = TrimURLScheme u2) :
    findRegistryByShortURL rp u1 = findRegistryByShortURL rp u2 := by
  unfold findRegistryByShortURL
  rw [h]

/-- C7: once the scan finds a registry for the bare probe
`github.com/acme/charts`, probing through either scheme returns that same
cached entry and leaves the provider unchanged, because the scheme is
stripped from the probe (and from every cached short URL) before the
prefix comparison. -/
theorem GetRegistryByShortURL_scheme_insensitive (rp : registryProvider)
    (r : Registry)
    (h : findRegistryByShortURL rp "github.com/acme/charts" = some r) :
    rp.GetRegistryByShortURL "https://github.com/acme/charts" = (.ok r, rp) ∧
    rp.GetRegistryByShortURL "http://github.com/acme/charts" = (.ok r, rp) := by
  have hs : findRegistryByShortURL rp "https://github.com/acme/charts" = some r := by
    rw [findRegistryByShortURL_trim_eq rp _ "github.com/acme/charts" (by decide)]
    exact h
  have ht : findRegistryByShortURL rp "http://github.com/acme/charts" = some r := by
    rw [findRegistryByShortURL_trim_eq rp _ "github.com/acme/charts" (by decide)]
    exact h
  unfold registryProvider.GetRegistryByShortURL registryProvider.GetRegistryByShortURLC
  rw [hs, ht]
  exact ⟨rfl, rfl⟩

/-- C7 (witness): the theorem applied to a provider caching `regAcme`,
whose short URL scheme-stripped is `github.com/acme/charts`. -/
theorem GetRegistryByShortURL_scheme_insensitive_witness :
    rpCached.GetRegistryByShortURL "https://github.com/acme/charts" =
      (.ok regAcme, rpCached) ∧
    rpCached.GetRegistryByShortURL "http://github.com/acme/charts" =
      (.ok regAcme, rpCached) :=
  GetRegistryByShortURL_scheme_insensitive rpCached regAcme rfl

/-! ## C9 — the cache is untouched on every error path -/

/-- C9: whenever `GetRegistryByName` or `GetRegistryByShortURL` returns an
error — the metadata lookup or the factory failed — the provider, and with
it the cache, is completely unchanged; on success the cache either was hit
(unchanged) or gains exactly one entry, keyed by the new registry's own
reported name. -/
theorem provider_cache_atomic :
    (∀ (rp : registryProvider) (n e : String),
      (rp.GetRegistryByNameC n).1 = .error e → (rp.GetRegistryByNameC n).2.1 = rp) ∧
    (∀ (rp : registryProvider) (n : String) (reg : Registry),
      (rp.GetRegistryByNameC n).1 = .ok reg →
        (rp.GetRegistryByNameC n).2.1 = rp ∨
        (rp.GetRegistryByNameC n).2.1 =
          { rp with registries := mapInsert rp.registries reg.GetRegistryName reg }) ∧
    (∀ (rp : registryProvider) (u e : String),
      (rp.GetRegistryByShortURLC u).1 = .error e →
        (rp.GetRegistryByShortURLC u).2.1 = rp) ∧
    (∀ (rp : registryProvider) (u : String) (reg : Registry),
      (rp.GetRegistryByShortURLC u).1 = .ok reg →
        (rp.GetRegistryByShortURLC u).2.1 = rp ∨
        (rp.GetRegistryByShortURLC u).2.1 =
          { rp with registries := mapInsert rp.registries reg.GetRegistryName reg }) := by
  refine ⟨?_, ?_, ?_, ?_⟩
  · intro rp n e h
    unfold registryProvider.GetRegistryByNameC at h ⊢
    rcases hl : mapLookup rp.registries n with _ | v
    · rcases hg : rp.rs.Get n with e' | cr
      · simp [hl, hg]
      · rcases hf : rp.grp.GetGithubRegistry cr with e' | r'
        · simp [hl, hg, hf]
        · simp [hl, hg, hf] at h
    · simp [hl] at h
  · intro rp n reg h
    unfold registryProvider.GetRegistryByNameC at h ⊢
    rcases hl : mapLookup rp.registries n with _ | v
    · rcases hg : rp.rs.Get n with e' | cr
      · simp [hl, hg] at h
      · rcases hf : rp.grp.GetGithubRegistry cr with e' | r'
        · simp [hl, hg, hf] at h
        · simp only [hl, hg, hf, Except.ok.injEq] at h
          subst h
          right
          simp [hl, hg, hf]
    · simp only [hl, Except.ok.injEq] at h
      subst h
      left
      simp [hl]
  · intro rp u e h
    unfold registryProvider.GetRegistryByShortURLC at h ⊢
    rcases hl : findRegistryByShortURL rp u with _ | v
    · rcases hg : rp.rs.GetByURL u with e' | cr
      · simp [hl, hg]
      · rcases hf : rp.grp.GetGithubRegistry cr with e' | r'
        · simp [hl, hg, hf]
        · simp [hl, hg, hf] at h
    · simp [hl] at h
  · intro rp u reg h
    unfold registryProvider.GetRegistryByShortURLC at h ⊢
    rcases hl : findRegistryByShortURL rp u with _ | v
    · rcases hg : rp.rs.GetByURL u with e' | cr
      · simp [hl, hg] at h
      · rcases hf : rp.grp.GetGithubRegistry cr with e' | r'
        · simp [hl, hg, hf] at h
        · simp only [hl, hg, hf, Except.ok.injEq] at h
          subst h
          right
          simp [hl, hg, hf]
    · simp only [hl, Except.ok.injEq] at h
      subst h
      left
      simp [hl]

/-- C9 (witness): the atomicity theorem applied to a provider with a
failing metadata service (both operations) and to a successful miss. -/
theorem provider_cache_atomic_witness :
    (rpFail.GetRegistryByNameC "r").2.1 = rpFail ∧
    (rpFail.GetRegistryByShortURLC "u").2.1 = rpFail ∧
    ((rpDemo.GetRegistryByNameC "r").2.1 = rpDemo ∨
      (rpDemo.GetRegistryByNameC "r").2.1 =
        { rpDemo with
            registries :=
              mapInsert rpDemo.registries regAcme.GetRegistryName regAcme }) :=
  ⟨provider_cache_atomic.1 rpFail "r" "registry not found" rfl,
   provider_cache_atomic.2.2.1 rpFail "u" "registry not found" rfl,
   provider_cache_atomic.2.1 rpDemo "r" regAcme rfl⟩

/-! ## C10 — the nil-registry guard exists only on the template path -/

/-- C10: when a provider answers a short-URL probe with a nil registry and
a nil error, the template converter aborts through its explicit `panic`,
while the package converter — which has no nil check — reaches the method
call on the nil `Registry` interface value and faults. -/
theorem nil_registry_guard_asymmetry :
    (∀ (rp : RegistryProviderI) (t : String),
      rp.GetRegistryByShortURL t = (none, none) →
      (reFind TemplateRegistryMatcher t.data).isSome = true →
      ShortTypeToDownloadURLs rp t =
        .panicked ("cannot get github registry for " ++ t)) ∧
    (∀ (rp : RegistryProviderI) (t : String),
      rp.GetRegistryByShortURL t = (none, none) →
      (reFind PackageRegistryMatcher t.data).isSome = true →
      ShortTypeToPackageDownloadURLs rp t = .nilDeref) := by
  constructor
  · intro rp t hp hm
    unfold ShortTypeToDownloadURLs
    rcases hr : reFind TemplateRegistryMatcher t.data with _ | m
    · rw [hr] at hm
      simp at hm
    · simp [hr, hp]
  · intro rp t hp hm
    unfold ShortTypeToPackageDownloadURLs
    rcases hr : reFind PackageRegistryMatcher t.data with _ | m
    · rw [hr] at hm
      simp at hm
    · simp [hr, hp, NewType]

/-- C10 (witness): the theorem applied to the nil-returning provider on
the two example short types. -/
theorem nil_registry_guard_asymmetry_witness :
    ShortTypeToDownloadURLs rpNil
        "github.com/kubernetes/application-dm-templates/storage/redis:v1" =
      .panicked
        "cannot get github registry for github.com/kubernetes/application-dm-templates/storage/redis:v1" ∧
    ShortTypeToPackageDownloadURLs rpNil "github.com/helm/charts/cassandra" =
      .nilDeref :=
  ⟨nil_registry_guard_asymmetry.1 rpNil
      "github.com/kubernetes/application-dm-templates/storage/redis:v1" rfl rfl,
   nil_registry_guard_asymmetry.2 rpNil "github.com/helm/charts/cassandra" rfl rfl⟩

end Helm
